import Mathlib

/-!
Verification of the spogtan parameter-resolution and lazy-evaluation engine
(src/lib/spogtan.ts) against its natural-language specification.

The engine is embedded shallowly: JavaScript runtime values become the
inductive `JVal`; evaluable trees (values possibly containing deferred
functions) become the inductive `Expr`, whose function-valued constructors
record the closures the library actually creates (`Spogtan.get`,
`Spogtan.with`, `Spogtan.default`, `merge`, `Spogtan.template`) next to
arbitrary user thunks and inherited-ops.  The mutable `this.stack` field is
threaded explicitly as a `Stack` value, and thrown JavaScript errors become
the `Except EErr` channel of every evaluation result.  `evaluate` is the
fueled interpreter corresponding to the exported `evaluate` function.
-/

set_option maxHeartbeats 1000000

namespace Spogtan

/-- A concrete (fully evaluated) JavaScript value, as produced by `evaluate`:
primitives, `null`, `undefined`, arrays, and plain objects (ordered key/value
lists). -/
inductive JVal where
  | str (s : String)
  | num (n : Int)
  | bool (b : Bool)
  | null
  | undef
  | arr (elems : List JVal)
  | obj (fields : List (String × JVal))
deriving Repr

/-- A reference slot inside a `Spogtan.template` call: either a parameter
name, or the special `'$inherited'` placeholder. -/
inductive TRef where
  | param (name : String)
  | inh
deriving Repr

/-- An evaluable tree, mirroring the TypeScript `Evaluable`/`FrameValue`
types.  Function-valued constructors correspond to the JavaScript closures
the library builds; each one records enough structure to evaluate it.
`thunk` is a user `LateValue` (declared parameter count 0), `op` a user
`InheritedOp` (declared parameter count 1).  `getP name required` is the
closure returned by `Spogtan.get`, `withF frame body` the closure returned by
`Spogtan.with`, `defaultV v` the closure returned by `Spogtan.default`,
`mergeV items` the closure returned by `merge`, and `templateV strings refs`
the closure returned by `Spogtan.template`. -/
inductive Expr where
  | str (s : String)
  | num (n : Int)
  | bool (b : Bool)
  | null
  | undef
  | arr (elems : List Expr)
  | obj (fields : List (String × Expr))
  | thunk (f : Unit → Expr)
  | op (f : JVal → Expr)
  | getP (name : String) (required : Bool)
  | withF (frame : List (String × Expr)) (body : Expr)
  | defaultV (value : Expr)
  | mergeV (items : List Expr)
  | templateV (strings : List String) (refs : List TRef)

/-- A `Frame` binds parameter names to frame values (arbitrary evaluables,
including inherited-ops). -/
abbrev Frame := List (String × Expr)

/-- The scope stack: `this.stack`.  The list is in JavaScript array order,
so the first element is the bottom (oldest-pushed) frame and the last
element is the top (most-recently-pushed) frame; `push` appends at the end
and `pop` removes the last element. -/
abbrev Stack := List Frame

/-- The errors evaluation can raise.  `scope`, `missingParameter` and
`unsupportedMergeType` are the three `Error`s thrown explicitly by the
source; `typeError` models host `TypeError`s raised by JavaScript primitives
(`Object.entries(null)`, reading `.constructor` of `undefined`); `fuel`
signals interpreter fuel exhaustion and corresponds to no program
behaviour. -/
inductive EErr where
  | fuel
  | scope
  | missingParameter (name : String) (stack : List (List (String × Expr)))
  | unsupportedMergeType (typeName : String)
  | typeError (msg : String)

/-- Every evaluation step returns the stack as left behind (JavaScript
exceptions do not restore `this.stack`) together with a result or error. -/
abbrev Res (α : Type) := Stack × Except EErr α

/-- `frame_value instanceof Function`: exactly the function-valued
constructors of `Expr` are JavaScript functions. -/
def Expr.isFunction : Expr → Bool
  | .thunk _ | .op _ | .getP _ _ | .withF _ _ | .defaultV _ | .mergeV _ | .templateV _ _ => true
  | _ => false

/-- `Function.length`, the declared parameter count of each closure:
user thunks, `get` closures and `with` closures take no parameter; user
inherited-ops, `default`, `merge` and `template` closures declare exactly
one (`inherited`). -/
def Expr.arity : Expr → Nat
  | .op _ | .defaultV _ | .mergeV _ | .templateV _ _ => 1
  | _ => 0

mutual
/-- Re-embed a concrete value as an evaluable: `evaluate` returns plain
data, and plain data is itself evaluable. -/
def Expr.ofJVal : JVal → Expr
  | .str s => .str s
  | .num n => .num n
  | .bool b => .bool b
  | .null => .null
  | .undef => .undef
  | .arr vs => .arr (Expr.ofJValList vs)
  | .obj fs => .obj (Expr.ofJValObj fs)

/-- Re-embed a list of concrete values. -/
def Expr.ofJValList : List JVal → List Expr
  | [] => []
  | v :: vs => Expr.ofJVal v :: Expr.ofJValList vs

/-- Re-embed the fields of a concrete object. -/
def Expr.ofJValObj : List (String × JVal) → List (String × Expr)
  | [] => []
  | (k, v) :: fs => (k, Expr.ofJVal v) :: Expr.ofJValObj fs
end

mutual
/-- `Array.prototype.join(",")` as invoked by `String(array)`: elements
separated by commas, each converted by `jsJoinElem`. -/
def jsStrList : List JVal → String
  | [] => ""
  | [v] => jsJoinElem v
  | v :: vs => jsJoinElem v ++ "," ++ jsStrList vs

/-- How `Array.prototype.join` renders one element: `null` and `undefined`
become the empty string (the quirk the template combinator must work
around); every other value is converted as JavaScript `String(value)`
would convert it. -/
def jsJoinElem : JVal → String
  | .null => ""
  | .undef => ""
  | .str s => s
  | .num n => toString n
  | .bool b => cond b "true" "false"
  | .arr xs => jsStrList xs
  | .obj _ => "[object Object]"
end

/-- One step of `Array.prototype.flat()`: arrays contribute their elements,
non-array items are kept as they are. -/
def flatten1 : JVal → List JVal
  | .arr xs => xs
  | v => [v]

/-- `Object.entries` on one merge item.  Plain objects yield their fields;
`null` and `undefined` raise a host `TypeError`; numbers and booleans have
no own enumerable properties; strings and arrays expose their indices. -/
def jsEntries : JVal → Except EErr (List (String × JVal))
  | .obj fs => .ok fs
  | .null => .error (.typeError "Cannot convert undefined or null to object")
  | .undef => .error (.typeError "Cannot convert undefined or null to object")
  | .num _ => .ok []
  | .bool _ => .ok []
  | .str s => .ok (s.toList.enum.map fun p => (toString p.1, JVal.str (String.singleton p.2)))
  | .arr xs => .ok (xs.enum.map fun p => (toString p.1, p.2))

/-- `items.map(Object.entries)` with left-to-right propagation of the first
thrown `TypeError`. -/
def jsEntriesList : List JVal → Except EErr (List (List (String × JVal)))
  | [] => .ok []
  | v :: vs =>
    match jsEntries v with
    | .ok es =>
      match jsEntriesList vs with
      | .ok rest => .ok (es :: rest)
      | .error e => .error e
    | .error e => .error e

/-- One step of `Object.fromEntries`: setting key `k` updates the value in
place when the key already exists (keeping its original position) and
appends a fresh entry otherwise. -/
def upsert (m : List (String × JVal)) (e : String × JVal) : List (String × JVal) :=
  if m.any (fun p => p.1 == e.1) then
    m.map (fun p => if p.1 == e.1 then e else p)
  else
    m ++ [e]

/-- `Object.fromEntries`: later entries win on key collision. -/
def fromEntriesJS (es : List (String × JVal)) : List (String × JVal) :=
  es.foldl upsert []

/-- The prepend step of `merge`: the `inherited` argument is put in front of
the evaluated items exactly when it is not `undefined`. -/
def prependInherited (arg : JVal) (vs : List JVal) : List JVal :=
  match arg with
  | .undef => vs
  | a => a :: vs

/-- The type-directed dispatch of `merge` on the fully evaluated item list,
mirroring the source order of checks: `typeof first === "string"`, then
`first instanceof Array`, then `typeof first === "object"` (which is also
true of `null`), and otherwise the explicit `UnsupportedMergeType` throw,
which reads `first.constructor.name` and therefore raises a host
`TypeError` when the first element is `undefined`. -/
def mergeDispatch (l : List JVal) : Except EErr JVal :=
  match l.head? with
  | some (.str _) => .ok (.str (String.join (l.map jsJoinElem)))
  | some (.arr _) => .ok (.arr (l.flatMap flatten1))
  | some (.obj _) | some .null =>
    match jsEntriesList l with
    | .ok ess => .ok (.obj (fromEntriesJS ess.flatten))
    | .error e => .error e
  | some (.num _) => .error (.unsupportedMergeType "Number")
  | some (.bool _) => .error (.unsupportedMergeType "Boolean")
  | some .undef => .error (.typeError "Cannot read properties of undefined (reading constructor)")
  | none => .error (.typeError "Cannot read properties of undefined (reading constructor)")

/-! The evaluation cluster.  The interpreter is structurally recursive on a
fuel bound; one unit of fuel is spent per `evaluate` entry.  Each helper
loop takes the one-level-smaller evaluator as an explicit `recur` parameter
and recurses structurally on its list argument, so the helpers need no fuel
of their own and theorems about them quantify over `recur` freely. -/

/-- Evaluate an array of evaluables left to right, threading the stack and
propagating the first error, as `value.map(evaluate)` does. -/
def evalListWith (recur : Stack → Expr → Res JVal) : Stack → List Expr → Res (List JVal)
  | st, [] => (st, .ok [])
  | st, e :: es =>
    match recur st e with
    | (st', .ok v) =>
      match evalListWith recur st' es with
      | (st'', .ok vs) => (st'', .ok (v :: vs))
      | (st'', .error err) => (st'', .error err)
    | (st', .error err) => (st', .error err)

/-- Evaluate the fields of an object evaluable in order, as
`Object.entries(value).map(([k, v]) => [k, evaluate(v)])` does. -/
def evalObjWith (recur : Stack → Expr → Res JVal) :
    Stack → List (String × Expr) → Res (List (String × JVal))
  | st, [] => (st, .ok [])
  | st, (k, e) :: fs =>
    match recur st e with
    | (st', .ok v) =>
      match evalObjWith recur st' fs with
      | (st'', .ok kvs) => (st'', .ok ((k, v) :: kvs))
      | (st'', .error err) => (st'', .error err)
    | (st', .error err) => (st', .error err)

/-- The loop body of `Spogtan.template`: interleave the literal fragments
with the resolved references.  A parameter reference is resolved through
`get_evaluated(parameter)` (a required `get`, fully forced); the
`'$inherited'` reference is the closure's own `inherited` argument.  A
resolved `null` is replaced by the literal string `"null"` before joining;
every other value is pushed as is. -/
def templateLoopWith (recur : Stack → Expr → Res JVal) :
    Stack → List String → List TRef → JVal → Res (List JVal)
  | st, strs, [], _ => (st, .ok [.str (strs.headD "")])
  | st, strs, r :: rest, arg =>
    match (match r with
           | .inh => ((st, .ok arg) : Res JVal)
           | .param name => recur st (.getP name true)) with
    | (st', .ok v) =>
      match templateLoopWith recur st' strs.tail rest arg with
      | (st'', .ok parts) =>
        (st'', .ok (.str (strs.headD "") :: (match v with | .null => .str "null" | w => w) :: parts))
      | (st'', .error err) => (st'', .error err)
    | (st', .error err) => (st', .error err)

/-- Calling one of the declared-parameter-count-one closures with an
argument (the resolver passes the fully forced prior value; `evaluate`
passes `undefined`).  A user inherited-op simply returns its body's result;
`default` returns the inherited value unless it is `undefined`, in which
case it returns the stored value; `merge` evaluates its items, prepends a
non-`undefined` inherited value and dispatches on the first element's type;
`template` interleaves and joins with the `Array.join` conversion.  Other
expressions are never dispatched here. -/
def apply1With (recur : Stack → Expr → Res JVal) (st : Stack) (fn : Expr) (arg : JVal) :
    Res Expr :=
  match fn with
  | .op f => (st, .ok (f arg))
  | .defaultV v =>
    match arg with
    | .undef => (st, .ok v)
    | w => (st, .ok (.ofJVal w))
  | .mergeV items =>
    match evalListWith recur st items with
    | (st', .ok vs) =>
      match mergeDispatch (prependInherited arg vs) with
      | .ok v => (st', .ok (.ofJVal v))
      | .error err => (st', .error err)
    | (st', .error err) => (st', .error err)
  | .templateV strs refs =>
    match templateLoopWith recur st strs refs arg with
    | (st', .ok parts) => (st', .ok (.str (String.join (parts.map jsJoinElem))))
    | (st', .error err) => (st', .error err)
  | _ => (st, .error (.typeError "not an inherited op"))

/-- The frame scan of `Spogtan.get`: `for (const frame of this.stack)`,
bottom (first-pushed) to top.  A frame not containing the parameter is
skipped.  A frame value that is a function of declared parameter count one
is called with the fully forced accumulated value; any other frame value
overwrites the accumulator as it stands, unforced.  The first `Stack`
argument is the live stack threaded through inner forcing; the `List Frame`
argument is the sequence of frames the loop still has to visit (inner
forcing that returns normally restores the stack, so iterating the
call-time frame list is faithful to the live `for...of` iteration). -/
def resolveLoopWith (recur : Stack → Expr → Res JVal) :
    Stack → List Frame → String → Expr → Res Expr
  | st, [], _, acc => (st, .ok acc)
  | st, fr :: rest, name, acc =>
    match List.lookup name fr with
    | none => resolveLoopWith recur st rest name acc
    | some fv =>
      if fv.isFunction && fv.arity == 1 then
        match recur st acc with
        | (st', .ok v) =>
          match apply1With recur st' fv v with
          | (st'', .ok acc') => resolveLoopWith recur st'' rest name acc'
          | (st'', .error err) => (st'', .error err)
        | (st', .error err) => (st', .error err)
      else
        resolveLoopWith recur st rest name fv

/-- Calling any of the engine's closures the way `evaluate` calls them,
i.e. `value()`: closures of declared parameter count one receive
`undefined`.  The `get` closure throws `scope` on an empty stack, scans the
frames, throws `missingParameter` (carrying the parameter name and the
current stack) when the accumulator is still `undefined` and the lookup is
required, and otherwise returns the unforced accumulator.  The `with`
closure pushes its frame, fully evaluates its body, and pops only on the
successful return path: the source has no `try`/`finally`, so a thrown
error leaves the frame on the stack. -/
def callWith (recur : Stack → Expr → Res JVal) (st : Stack) (fn : Expr) : Res Expr :=
  match fn with
  | .thunk f => (st, .ok (f ()))
  | .getP name req =>
    if st.isEmpty then
      (st, .error .scope)
    else
      match resolveLoopWith recur st st name .undef with
      | (st', .ok acc) =>
        match acc, req with
        | .undef, true => (st', .error (.missingParameter name st'))
        | acc, _ => (st', .ok acc)
      | (st', .error err) => (st', .error err)
  | .withF fr body =>
    match recur (st ++ [fr]) body with
    | (st', .ok v) => (st'.dropLast, .ok (.ofJVal v))
    | (st', .error err) => (st', .error err)
  | fn => apply1With recur st fn JVal.undef

/-- The exported `evaluate` function, fueled.  Functions are called and the
result is evaluated recursively; arrays and objects are evaluated
elementwise; every other value is already concrete. -/
def evaluate : Nat → Stack → Expr → Res JVal
  | 0, st, _ => (st, .error .fuel)
  | fuel + 1, st, e =>
    match e with
    | .str s => (st, .ok (.str s))
    | .num n => (st, .ok (.num n))
    | .bool b => (st, .ok (.bool b))
    | .null => (st, .ok .null)
    | .undef => (st, .ok .undef)
    | .arr es =>
      match evalListWith (evaluate fuel) st es with
      | (st', .ok vs) => (st', .ok (.arr vs))
      | (st', .error err) => (st', .error err)
    | .obj fs =>
      match evalObjWith (evaluate fuel) st fs with
      | (st', .ok kvs) => (st', .ok (.obj kvs))
      | (st', .error err) => (st', .error err)
    | fn =>
      match callWith (evaluate fuel) st fn with
      | (st', .ok e') => evaluate fuel st' e'
      | (st', .error err) => (st', .error err)

/-- Modelled from the spec, for comparison with the resolver: the left-fold
of §8, "with frames F1…Fn (bottom to top) each defining an `InheritedOp`
for the same parameter, resolution equals the left-fold
`Fn(...F2(F1(unset))...)` with each step receiving the fully forced result
of the previous", starting from `unset` and fully forcing after every
step. -/
def specFold (recur : Stack → Expr → Res JVal) : Stack → List (JVal → Expr) → JVal → Res JVal
  | st, [], x => (st, .ok x)
  | st, f :: rest, x =>
    match recur st (f x) with
    | (st', .ok v) => specFold recur st' rest v
    | (st', .error err) => (st', .error err)

/-- A stack of single-binding frames, each holding a user inherited-op for
the same parameter, bottom to top. -/
def opsFrames (name : String) (ops : List (JVal → Expr)) : Stack :=
  ops.map fun f => [(name, Expr.op f)]

/-- Modelled from the spec, for comparison with the resolver: "the entry
set by the most-recently-pushed frame that defines the name".  The stack
lists frames bottom first, so the binding of the rightmost (topmost) frame
that defines the name wins. -/
def lastBinding (name : String) : Stack → Option Expr
  | [] => none
  | fr :: rest =>
    match lastBinding name rest with
    | some e => some e
    | none => List.lookup name fr

/-- Recognize the explicit `UnsupportedMergeType` error among evaluation
outcomes. -/
def isUnsupportedMerge : Except EErr JVal → Bool
  | .error (.unsupportedMergeType _) => true
  | _ => false

/-! Helper lemmas shared by the claim theorems. -/

/-- Helper: one forcing step of the closure returned by `get`, on a
non-empty stack, written as a single match over the frame scan's result:
a still-`undefined` accumulator with `required` set throws
`missingParameter`, any other accumulator is forced. -/
theorem evaluate_getP (fuel : Nat) (fr : Frame) (rest : Stack) (name : String) (req : Bool) :
    evaluate (fuel + 1) (fr :: rest) (Expr.getP name req)
      = match resolveLoopWith (evaluate fuel) (fr :: rest) (fr :: rest) name Expr.undef with
        | (st', .ok acc) =>
          match acc, req with
          | .undef, true => (st', .error (.missingParameter name st'))
          | acc, _ => evaluate fuel st' acc
        | (st', .error err) => (st', .error err) := by
  show (match callWith (evaluate fuel) (fr :: rest) (Expr.getP name req) with
        | (st', .ok e') => evaluate fuel st' e'
        | (st', .error err) => (st', .error err)) = _
  simp only [callWith, List.isEmpty_cons]
  cases hl : resolveLoopWith (evaluate fuel) (fr :: rest) (fr :: rest) name Expr.undef with
  | mk st' r =>
    cases r with
    | ok acc => cases acc <;> cases req <;> rfl
    | error e => rfl

/-- Helper: the frame scan over a stack of single-op frames, composed with a
final forcing, is the spec's left-fold with forcing interleaved after every
step. -/
theorem resolveLoop_opsFrames (recur : Stack → Expr → Res JVal) (name : String) :
    ∀ (ops : List (JVal → Expr)) (st : Stack) (acc : Expr),
    (match resolveLoopWith recur st (opsFrames name ops) name acc with
     | (st', .ok e) => recur st' e
     | (st', .error err) => (st', .error err))
    = (match recur st acc with
       | (st', .ok v) => specFold recur st' ops v
       | (st', .error err) => (st', .error err)) := by
  intro ops
  induction ops with
  | nil =>
    intro st acc
    cases h : recur st acc with
    | mk s r => cases r <;> simp [resolveLoopWith, specFold, opsFrames, h]
  | cons f ops ih =>
    intro st acc
    simp only [opsFrames, List.map_cons]
    rw [show resolveLoopWith recur st
          ([(name, Expr.op f)] :: List.map (fun f => [(name, Expr.op f)]) ops) name acc
        = (match recur st acc with
           | (st', .ok v) =>
             resolveLoopWith recur st' (List.map (fun f => [(name, Expr.op f)]) ops) name (f v)
           | (st', .error err) => (st', .error err)) from ?_]
    · cases h : recur st acc with
      | mk s r =>
        cases r with
        | ok v =>
          have := ih s (f v)
          simp only [opsFrames] at this
          simpa [specFold, h] using this
        | error e => simp [specFold, h]
    · cases h : recur st acc with
      | mk s r =>
        cases r <;>
          simp [resolveLoopWith, List.lookup, Expr.isFunction, Expr.arity, apply1With, h]

/-- Helper: a successful scan over a non-empty stack of single-op frames
ends on the unforced return value of one of the ops. -/
theorem resolveLoop_opsFrames_ok (recur : Stack → Expr → Res JVal) (name : String) :
    ∀ (ops : List (JVal → Expr)) (f₀ : JVal → Expr) (st : Stack) (acc : Expr)
      (st' : Stack) (e : Expr),
    resolveLoopWith recur st (opsFrames name (f₀ :: ops)) name acc = (st', .ok e) →
    ∃ g, g ∈ f₀ :: ops ∧ ∃ v, e = g v := by
  intro ops
  induction ops with
  | nil =>
    intro f₀ st acc st' e h
    simp only [opsFrames, List.map_cons, List.map_nil] at h
    rw [show resolveLoopWith recur st [[(name, Expr.op f₀)]] name acc
        = (match recur st acc with
           | (s, .ok v) => (s, .ok (f₀ v))
           | (s, .error err) => (s, .error err)) from ?_] at h
    · cases hr : recur st acc with
      | mk s r =>
        rw [hr] at h
        cases r with
        | ok v =>
          injection h with h1 h2
          injection h2 with h3
          exact ⟨f₀, List.mem_cons_self f₀ [], v, h3.symm⟩
        | error err => simp at h
    · cases hr : recur st acc with
      | mk s r =>
        cases r <;>
          simp [resolveLoopWith, List.lookup, Expr.isFunction, Expr.arity, apply1With, hr]
  | cons f₁ ops ih =>
    intro f₀ st acc st' e h
    simp only [opsFrames, List.map_cons] at h
    rw [show resolveLoopWith recur st
          ([(name, Expr.op f₀)] :: [(name, Expr.op f₁)]
            :: List.map (fun f => [(name, Expr.op f)]) ops) name acc
        = (match recur st acc with
           | (s, .ok v) =>
             resolveLoopWith recur s
               ([(name, Expr.op f₁)] :: List.map (fun f => [(name, Expr.op f)]) ops) name (f₀ v)
           | (s, .error err) => (s, .error err)) from ?_] at h
    · cases hr : recur st acc with
      | mk s r =>
        rw [hr] at h
        cases r with
        | ok v =>
          simp only at h
          have h' : resolveLoopWith recur s (opsFrames name (f₁ :: ops)) name (f₀ v)
              = (st', .ok e) := by
            simpa [opsFrames] using h
          obtain ⟨g, hg, w, hw⟩ := ih f₁ s (f₀ v) st' e h'
          exact ⟨g, List.mem_cons_of_mem f₀ hg, w, hw⟩
        | error err => simp at h
    · cases hr : recur st acc with
      | mk s r =>
        cases r <;>
          simp [resolveLoopWith, List.lookup, Expr.isFunction, Expr.arity, apply1With, hr]

/-- Helper: over frames that bind the parameter only to non-inherited-op
values, the scan is a pure overwrite fold: it returns the most recent
binding (or the incoming accumulator when none binds the name) and never
touches the threaded stack. -/
theorem resolveLoop_concrete (recur : Stack → Expr → Res JVal) (name : String) :
    ∀ (frames : List Frame) (st : Stack) (acc : Expr),
    (∀ fr, fr ∈ frames → ∀ e, List.lookup name fr = some e →
      (e.isFunction && e.arity == 1) = false) →
    resolveLoopWith recur st frames name acc
      = (st, .ok ((lastBinding name frames).getD acc)) := by
  intro frames
  induction frames with
  | nil => intro st acc h; rfl
  | cons fr frames ih =>
    intro st acc h
    cases hlk : List.lookup name fr with
    | none =>
      rw [show resolveLoopWith recur st (fr :: frames) name acc
            = resolveLoopWith recur st frames name acc from by
          simp [resolveLoopWith, hlk]]
      rw [ih st acc (fun fr' h' e he => h fr' (List.mem_cons_of_mem _ h') e he)]
      simp only [lastBinding, hlk]
      cases lastBinding name frames <;> rfl
    | some fv =>
      have hf := h fr (List.mem_cons_self fr frames) fv hlk
      rw [show resolveLoopWith recur st (fr :: frames) name acc
            = resolveLoopWith recur st frames name fv from by
          simp [resolveLoopWith, hlk, hf]]
      rw [ih st fv (fun fr' h' e he => h fr' (List.mem_cons_of_mem _ h') e he)]
      simp only [lastBinding, hlk]
      cases lastBinding name frames <;> rfl

/-- Helper: replacing the entries for one key does not change lookups of
other keys. -/
theorem lookup_map_replace (k k' : String) (v : JVal) (hne : k ≠ k') :
    ∀ m : List (String × JVal),
    List.lookup k (m.map fun p => if p.1 == k' then (k', v) else p) = List.lookup k m := by
  intro m
  induction m with
  | nil => rfl
  | cons p m ih =>
    rcases p with ⟨pk, pv⟩
    simp only [List.map_cons]
    by_cases hp : pk = k'
    · subst hp
      simp only [beq_self_eq_true, if_true]
      rw [List.lookup_cons, List.lookup_cons, beq_eq_false_iff_ne.mpr hne]
      exact ih
    · simp only [beq_eq_false_iff_ne.mpr hp, Bool.false_eq_true, if_false]
      rw [List.lookup_cons, List.lookup_cons]
      cases hkk : (k == pk)
      · exact ih
      · rfl

/-- Helper: when the key is present, replacing its entries makes its lookup
return the new value. -/
theorem lookup_map_replace_self (k' : String) (v : JVal) :
    ∀ m : List (String × JVal), m.any (fun p => p.1 == k') = true →
    List.lookup k' (m.map fun p => if p.1 == k' then (k', v) else p) = some v := by
  intro m
  induction m with
  | nil => intro h; simp at h
  | cons p m ih =>
    intro hmem
    rcases p with ⟨pk, pv⟩
    simp only [List.map_cons]
    by_cases hp : pk = k'
    · subst hp
      simp only [beq_self_eq_true, if_true]
      rw [List.lookup_cons_self]
    · simp only [List.any_cons] at hmem
      rw [beq_eq_false_iff_ne.mpr hp] at hmem
      simp only [Bool.false_or] at hmem
      simp only [beq_eq_false_iff_ne.mpr hp, Bool.false_eq_true, if_false]
      rw [List.lookup_cons, beq_eq_false_iff_ne.mpr fun h => hp h.symm]
      exact ih hmem

/-- Helper: one `Object.fromEntries` step — setting a key overwrites its
value and leaves every other key alone. -/
theorem lookup_upsert (m : List (String × JVal)) (k k' : String) (v : JVal) :
    List.lookup k (upsert m (k', v)) = if k = k' then some v else List.lookup k m := by
  unfold upsert
  by_cases hmem : m.any (fun p => p.1 == (k', v).1) = true
  · rw [if_pos hmem]
    by_cases hk : k = k'
    · subst hk
      rw [if_pos rfl]
      exact lookup_map_replace_self k v m hmem
    · rw [if_neg hk]
      exact lookup_map_replace k k' v hk m
  · rw [if_neg hmem]
    rw [List.lookup_append]
    by_cases hk : k = k'
    · subst hk
      rw [if_pos rfl]
      have hnone : List.lookup k m = none := by
        rw [List.lookup_eq_none_iff]
        intro p hp
        rw [Bool.not_eq_true] at hmem
        have := List.any_eq_false.mp hmem p hp
        simp only [bne_iff_ne]
        intro h
        exact this (by simp [h])
      rw [hnone, Option.none_or, List.lookup_cons_self]
    · rw [if_neg hk]
      have h1 : List.lookup k [(k', v)] = none := by
        rw [List.lookup_cons, beq_eq_false_iff_ne.mpr hk]
        rfl
      rw [h1, Option.or_none]

/-- Helper: folding `upsert` over an entry list looks up like the reversed
entry list (later entries shadow earlier ones). -/
theorem lookup_foldl_upsert :
    ∀ (es m : List (String × JVal)) (k : String),
    List.lookup k (es.foldl upsert m) = (List.lookup k es.reverse).or (List.lookup k m) := by
  intro es
  induction es with
  | nil => intro m k; simp
  | cons e es ih =>
    intro m k
    rw [List.foldl_cons, ih, List.reverse_cons, List.lookup_append]
    rcases e with ⟨k', v⟩
    rw [lookup_upsert, Option.or_assoc]
    congr 1
    by_cases hk : k = k'
    · subst hk
      rw [if_pos rfl, List.lookup_cons_self, Option.or_some]
    · rw [if_neg hk, List.lookup_cons, beq_eq_false_iff_ne.mpr hk]
      rw [show (List.lookup k ([] : List (String × JVal))) = none from rfl, Option.none_or]

/-- Helper: the `Object.fromEntries` lookup law — the value for a key is the
one from the last entry carrying that key. -/
theorem lookup_fromEntriesJS (es : List (String × JVal)) (k : String) :
    List.lookup k (fromEntriesJS es) = List.lookup k es.reverse := by
  rw [fromEntriesJS, lookup_foldl_upsert, List.lookup_nil, Option.or_none]

/-- Helper: string items pass through the `Array.join` element conversion
unchanged. -/
theorem map_jsJoinElem_str (ss : List String) :
    (ss.map JVal.str).map jsJoinElem = ss := by
  induction ss with
  | nil => rfl
  | cons s ss ih => simp only [List.map_cons, ih]; rfl

/-- Helper: flattening one level of a list of arrays concatenates them. -/
theorem flatMap_flatten1_arr (ls : List (List JVal)) :
    (ls.map JVal.arr).flatMap flatten1 = ls.flatten := by
  induction ls with
  | nil => rfl
  | cons l ls ih => simp only [List.map_cons, List.flatMap_cons, List.flatten_cons, ih]; rfl

/-- Helper: `Object.entries` of a list of plain objects yields their field
lists. -/
theorem jsEntriesList_obj (fss : List (List (String × JVal))) :
    jsEntriesList (fss.map JVal.obj) = .ok fss := by
  induction fss with
  | nil => rfl
  | cons fs fss ih => simp only [List.map_cons, jsEntriesList, jsEntries, ih]

/-! The claim theorems. -/

/-- C1: the claim asserts that forcing the thunk returned by
`with(frame, tree)` pops the frame on every exit path, including a throw.
The source pushes, evaluates, and pops with no `try`/`finally`, so when the
body throws the frame stays pushed.  Evaluated at the concrete failing
input: starting from an empty stack, forcing `with({}, get("x"))` throws
`MissingParameterError` (parameter `x` is unbound) and leaves the pushed
frame on the stack — the observed stack depth after the failed force is 1,
not the 0 the claim requires. -/
theorem claim_C1 :
    evaluate 5 [] (Expr.withF [] (Expr.getP "x" true))
      = ([[]], .error (.missingParameter "x" [[]]))
    ∧ (evaluate 5 [] (Expr.withF [] (Expr.getP "x" true))).1.length = 1 :=
  ⟨rfl, rfl⟩

/-- C2: over a stack of frames each binding the parameter to a user
`InheritedOp` (spec-side ops return proper values, never the `undefined`
marker), forcing the lookup returned by `get(name)` equals the spec's
left-fold `Fn(...F2(F1(unset))...)`, where every fold step receives the
fully forced result of the previous step and the first receives `unset`. -/
theorem claim_C2 (fuel : Nat) (name : String) (f₀ : JVal → Expr) (ops : List (JVal → Expr))
    (hops : ∀ g, g ∈ f₀ :: ops → ∀ v, g v ≠ Expr.undef) :
    evaluate (fuel + 1 + 1) (opsFrames name (f₀ :: ops)) (Expr.getP name true)
      = specFold (evaluate (fuel + 1)) (opsFrames name (f₀ :: ops)) (f₀ :: ops) JVal.undef := by
  show evaluate (fuel + 1 + 1) ([(name, Expr.op f₀)] :: opsFrames name ops) (Expr.getP name true)
      = specFold (evaluate (fuel + 1)) (opsFrames name (f₀ :: ops)) (f₀ :: ops) JVal.undef
  rw [evaluate_getP]
  have hfold := resolveLoop_opsFrames (evaluate (fuel + 1)) name (f₀ :: ops)
      (opsFrames name (f₀ :: ops)) Expr.undef
  rw [show evaluate (fuel + 1) (opsFrames name (f₀ :: ops)) Expr.undef
      = ((opsFrames name (f₀ :: ops)), Except.ok JVal.undef) from rfl] at hfold
  cases hl : resolveLoopWith (evaluate (fuel + 1)) ([(name, Expr.op f₀)] :: opsFrames name ops)
      ([(name, Expr.op f₀)] :: opsFrames name ops) name Expr.undef with
  | mk st' r =>
    rw [show resolveLoopWith (evaluate (fuel + 1)) (opsFrames name (f₀ :: ops))
          (opsFrames name (f₀ :: ops)) name Expr.undef = (st', r) from hl] at hfold
    cases r with
    | error err => exact hfold
    | ok acc =>
      obtain ⟨g, hg, v, hv⟩ :=
        resolveLoop_opsFrames_ok (evaluate (fuel + 1)) name ops f₀
          ([(name, Expr.op f₀)] :: opsFrames name ops) Expr.undef st' acc hl
      have hacc : acc ≠ Expr.undef := by
        rw [hv]; exact hops g hg v
      cases acc <;> first | exact absurd rfl hacc | exact hfold

/-- C2 witness: one inherited-op constantly returning the number 1,
resolved and compared with the spec fold at concrete fuel. -/
theorem claim_C2_witness :
    evaluate 2 (opsFrames "x" [fun _ => Expr.num 1]) (Expr.getP "x" true)
      = specFold (evaluate 1) (opsFrames "x" [fun _ => Expr.num 1]) [fun _ => Expr.num 1]
          JVal.undef :=
  claim_C2 0 "x" (fun _ => Expr.num 1) []
    (fun g hg v => by
      rw [List.mem_singleton.mp hg]
      exact fun h => nomatch h)

/-- C3: over a non-empty stack whose frames bind the parameter only to
concrete (non-inherited-op) entries, with the most recent binding not the
`undefined` marker, forcing `get(name)` forces exactly the entry set by the
most-recently-pushed frame that defines the name (the scan runs bottom,
oldest-pushed, to top, most-recently-pushed, and leaves the stack
untouched), regardless of what earlier-pushed frames bound. -/
theorem claim_C3 (fuel : Nat) (name : String) (fr₀ : Frame) (rest : Stack) (elast : Expr)
    (hconc : ∀ fr, fr ∈ fr₀ :: rest → ∀ e, List.lookup name fr = some e →
      (e.isFunction && e.arity == 1) = false)
    (hlast : lastBinding name (fr₀ :: rest) = some elast)
    (hne : elast ≠ Expr.undef) :
    evaluate (fuel + 1 + 1) (fr₀ :: rest) (Expr.getP name true)
      = evaluate (fuel + 1) (fr₀ :: rest) elast := by
  rw [evaluate_getP, resolveLoop_concrete (evaluate (fuel + 1)) name (fr₀ :: rest)
      (fr₀ :: rest) Expr.undef hconc, hlast]
  cases elast <;> first | exact absurd rfl hne | rfl

/-- C3 witness: two frames writing 1 then 2 concretely; the resolver
forces the entry of the most recently pushed frame. -/
theorem claim_C3_witness :
    evaluate 2 [[("x", Expr.num 1)], [("x", Expr.num 2)]] (Expr.getP "x" true)
      = evaluate 1 [[("x", Expr.num 1)], [("x", Expr.num 2)]] (Expr.num 2) :=
  claim_C3 0 "x" [("x", Expr.num 1)] [[("x", Expr.num 2)]] (Expr.num 2)
    (by
      intro fr hfr e he
      simp only [List.mem_cons, List.not_mem_nil, or_false] at hfr
      rcases hfr with rfl | rfl <;>
        (injection he with h; exact h ▸ rfl))
    rfl (fun h => nomatch h)

/-- C4: `default(v)` is the inherited-op that returns its inherited input
when that input is set and `v` otherwise; pushing `{x: default(1)}` and
then `{x: default(2)}` resolves `x` to 1 — the outer default establishes
the baseline first, so the inner default's already-set check fires. -/
theorem claim_C4 :
    (∀ recur st v, apply1With recur st (Expr.defaultV v) JVal.undef = (st, .ok v))
    ∧ (∀ recur st v w, w ≠ JVal.undef →
        apply1With recur st (Expr.defaultV v) w = (st, .ok (Expr.ofJVal w)))
    ∧ evaluate 4 [[("x", Expr.defaultV (.num 1))], [("x", Expr.defaultV (.num 2))]]
        (Expr.getP "x" true)
      = ([[("x", Expr.defaultV (.num 1))], [("x", Expr.defaultV (.num 2))]],
         .ok (JVal.num 1)) := by
  refine ⟨fun recur st v => rfl, fun recur st v w hw => ?_, rfl⟩
  cases w <;> first | rfl | exact (hw rfl).elim

/-- C4 witness: a default applied to an established inherited value returns
the inherited value. -/
theorem claim_C4_witness :
    apply1With (evaluate 0) [] (Expr.defaultV (Expr.str "d")) (JVal.num 5)
      = ([], .ok (Expr.ofJVal (JVal.num 5))) :=
  claim_C4.2.1 (evaluate 0) [] (Expr.str "d") (JVal.num 5) (fun h => nomatch h)

/-- C5: `merge` prepends a set inherited value and drops an unset one;
on a textual first element it concatenates the items in order with no
separator, on a sequence first element it flattens one level preserving
order and duplicates, and on a mapping first element it unions the entries
with the later (more-rightward) entry winning on every key collision;
`merge("a","b")` forces to `"ab"` with no inherited value and to `"zab"`
with inherited `"z"`. -/
theorem claim_C5 :
    (∀ vs, prependInherited JVal.undef vs = vs)
    ∧ (∀ w vs, w ≠ JVal.undef → prependInherited w vs = w :: vs)
    ∧ (∀ (s : String) (ss : List String),
        mergeDispatch (JVal.str s :: ss.map JVal.str)
          = .ok (.str (String.join (s :: ss))))
    ∧ (∀ (l : List JVal) (ls : List (List JVal)),
        mergeDispatch (JVal.arr l :: ls.map JVal.arr) = .ok (.arr (l ++ ls.flatten)))
    ∧ (∀ (fs : List (String × JVal)) (fss : List (List (String × JVal))),
        mergeDispatch (JVal.obj fs :: fss.map JVal.obj)
          = .ok (.obj (fromEntriesJS (fs ++ fss.flatten))))
    ∧ (∀ (es : List (String × JVal)) (k : String),
        List.lookup k (fromEntriesJS es) = List.lookup k es.reverse)
    ∧ apply1With (evaluate 3) [] (Expr.mergeV [Expr.str "a", Expr.str "b"]) JVal.undef
        = ([], .ok (Expr.str "ab"))
    ∧ apply1With (evaluate 3) [] (Expr.mergeV [Expr.str "a", Expr.str "b"]) (JVal.str "z")
        = ([], .ok (Expr.str "zab")) := by
  refine ⟨fun vs => rfl, fun w vs hw => ?_, fun s ss => ?_, fun l ls => ?_, fun fs fss => ?_,
    lookup_fromEntriesJS, rfl, rfl⟩
  · cases w <;> first | rfl | exact (hw rfl).elim
  · show Except.ok (JVal.str (String.join
          (jsJoinElem (JVal.str s) :: (ss.map JVal.str).map jsJoinElem)))
        = Except.ok (JVal.str (String.join (s :: ss)))
    rw [map_jsJoinElem_str]
    rfl
  · show Except.ok (JVal.arr (flatten1 (JVal.arr l) ++ (ls.map JVal.arr).flatMap flatten1))
        = Except.ok (JVal.arr (l ++ ls.flatten))
    rw [flatMap_flatten1_arr]
    rfl
  · show (match jsEntriesList (JVal.obj fs :: fss.map JVal.obj) with
          | .ok ess => Except.ok (JVal.obj (fromEntriesJS ess.flatten))
          | .error e => Except.error e)
        = Except.ok (JVal.obj (fromEntriesJS (fs ++ fss.flatten)))
    rw [show jsEntriesList (JVal.obj fs :: fss.map JVal.obj) = .ok (fs :: fss) from by
      simp only [jsEntriesList, jsEntries, jsEntriesList_obj]]
    rfl

/-- C5 witness: a set inherited value is prepended in front of the items. -/
theorem claim_C5_witness :
    prependInherited (JVal.str "z") [JVal.str "a"] = [JVal.str "z", JVal.str "a"] :=
  claim_C5.2.1 (JVal.str "z") [JVal.str "a"] (fun h => nomatch h)

/-- C6 counterexample: the claim asserts that merging a first element that
is neither textual, sequence, nor mapping — naming null as an example —
fails with `UnsupportedMergeTypeError`.  At the concrete input
`merge(null)`, forced with no inherited value, the code instead dispatches
null into the mapping branch (JavaScript `typeof null` is `"object"`) and
fails with the host `TypeError` thrown by `Object.entries(null)`. -/
theorem claim_C6_cex :
    (evaluate 5 [] (Expr.mergeV [Expr.null])).2
        = Except.error (EErr.typeError "Cannot convert undefined or null to object")
    ∧ isUnsupportedMerge (evaluate 5 [] (Expr.mergeV [Expr.null])).2 = false :=
  ⟨rfl, rfl⟩

/-- C6 amended: when the first evaluated element is a number or a boolean,
`merge` fails with `UnsupportedMergeTypeError` naming the offending
element's constructor; a null first element instead enters the mapping
branch and fails with the host `TypeError` of `Object.entries`, and an
undefined first element fails with the host `TypeError` raised by reading
its `constructor`. -/
theorem claim_C6 :
    (∀ n rest, mergeDispatch (JVal.num n :: rest) = .error (.unsupportedMergeType "Number"))
    ∧ (∀ b rest, mergeDispatch (JVal.bool b :: rest) = .error (.unsupportedMergeType "Boolean"))
    ∧ (∀ rest, mergeDispatch (JVal.null :: rest)
        = .error (.typeError "Cannot convert undefined or null to object"))
    ∧ (∀ rest, mergeDispatch (JVal.undef :: rest)
        = .error (.typeError "Cannot read properties of undefined (reading constructor)"))
    ∧ evaluate 5 [] (Expr.mergeV [Expr.num 3]) = ([], .error (.unsupportedMergeType "Number"))
    ∧ evaluate 5 [] (Expr.mergeV [Expr.bool true])
        = ([], .error (.unsupportedMergeType "Boolean")) :=
  ⟨fun _ _ => rfl, fun _ _ => rfl, fun _ => rfl, fun _ => rfl, rfl, rfl⟩

/-- C7: forcing the deferred lookup returned by `get(name, required)` on an
empty scope stack fails with `ScopeError`, for every parameter name and
both values of the required flag, before any frame scan or
missing-parameter check can happen. -/
theorem claim_C7 (name : String) (req : Bool) (fuel : Nat) :
    evaluate (fuel + 1) [] (Expr.getP name req) = ([], .error EErr.scope) := rfl

/-- C8: when the scan of a non-empty stack leaves the accumulator unset, a
required lookup fails with `MissingParameterError` carrying the parameter
name and the current stack snapshot, while a non-required lookup returns
the unset value without error. -/
theorem claim_C8 (fuel : Nat) (fr : Frame) (rest : Stack) (name : String) (st' : Stack)
    (hloop : resolveLoopWith (evaluate (fuel + 1)) (fr :: rest) (fr :: rest) name Expr.undef
      = (st', .ok Expr.undef)) :
    evaluate (fuel + 1 + 1) (fr :: rest) (Expr.getP name true)
      = (st', .error (.missingParameter name st'))
    ∧ evaluate (fuel + 1 + 1) (fr :: rest) (Expr.getP name false) = (st', .ok JVal.undef) := by
  constructor
  · rw [evaluate_getP, hloop]
  · rw [evaluate_getP, hloop]; rfl

/-- C8 witness: a stack with one frame binding only `y`, resolved for `x`. -/
theorem claim_C8_witness :
    evaluate 2 [[("y", Expr.num 1)]] (Expr.getP "x" true)
      = ([[("y", Expr.num 1)]], .error (.missingParameter "x" [[("y", Expr.num 1)]]))
    ∧ evaluate 2 [[("y", Expr.num 1)]] (Expr.getP "x" false)
      = ([[("y", Expr.num 1)]], .ok JVal.undef) :=
  claim_C8 0 [("y", Expr.num 1)] [] "x" [[("y", Expr.num 1)]] rfl

/-- C9: the template combinator concatenates the literal fragments and the
resolved references in their exact interleave order — shown for the
inherited placeholder bound to a null inherited argument, for two parameter
references resolved from the stack, and for a parameter bound to null — and
a null reference renders as the literal text `"null"`, whereas the plain
`Array.join` element conversion would render null as the empty string. -/
theorem claim_C9 :
    (∀ (recur : Stack → Expr → Res JVal) (st : Stack) (s₀ s₁ : String),
      apply1With recur st (Expr.templateV [s₀, s₁] [TRef.inh]) JVal.null
        = (st, .ok (.str (String.join [s₀, "null", s₁]))))
    ∧ (∀ (fuel : Nat) (s₀ s₁ s₂ v₁ v₂ : String),
      evaluate (fuel + 1 + 1 + 1) [[("a", Expr.str v₁), ("b", Expr.str v₂)]]
          (Expr.templateV [s₀, s₁, s₂] [TRef.param "a", TRef.param "b"])
        = ([[("a", Expr.str v₁), ("b", Expr.str v₂)]],
           .ok (.str (String.join [s₀, v₁, s₁, v₂, s₂]))))
    ∧ (∀ (fuel : Nat) (s₀ s₁ : String),
      evaluate (fuel + 1 + 1 + 1) [[("x", Expr.null)]]
          (Expr.templateV [s₀, s₁] [TRef.param "x"])
        = ([[("x", Expr.null)]], .ok (.str (String.join [s₀, "null", s₁]))))
    ∧ jsJoinElem JVal.null = "" :=
  ⟨fun _ _ _ _ => rfl, fun _ _ _ _ _ _ => rfl, fun _ _ _ => rfl, rfl⟩

/-- C10: the resolver dispatches a frame entry as an inherited-op exactly
when it is a function whose declared parameter count equals 1 — true of
user inherited-ops and of the `default`, `merge` and `template` closures,
false of user thunks and of the `get` and `with` closures — and a
non-dispatched entry (in particular any zero-argument thunk) overwrites the
accumulator without being invoked, while a dispatched op is invoked with
the fully forced prior value. -/
theorem claim_C10 :
    (∀ f : Unit → Expr, ((Expr.thunk f).isFunction && (Expr.thunk f).arity == 1) = false)
    ∧ (∀ f : JVal → Expr, ((Expr.op f).isFunction && (Expr.op f).arity == 1) = true)
    ∧ (∀ v, ((Expr.defaultV v).isFunction && (Expr.defaultV v).arity == 1) = true)
    ∧ (∀ items, ((Expr.mergeV items).isFunction && (Expr.mergeV items).arity == 1) = true)
    ∧ (∀ strs refs,
        ((Expr.templateV strs refs).isFunction && (Expr.templateV strs refs).arity == 1) = true)
    ∧ (∀ n r, ((Expr.getP n r).isFunction && (Expr.getP n r).arity == 1) = false)
    ∧ (∀ fr b, ((Expr.withF fr b).isFunction && (Expr.withF fr b).arity == 1) = false)
    ∧ (∀ recur st name fv rest acc, (fv.isFunction && fv.arity == 1) = false →
        resolveLoopWith recur st ([(name, fv)] :: rest) name acc
          = resolveLoopWith recur st rest name fv)
    ∧ (∀ recur st name f rest acc,
        resolveLoopWith recur st ([(name, Expr.op f)] :: rest) name acc =
          match recur st acc with
          | (st', .ok v) => resolveLoopWith recur st' rest name (f v)
          | (st', .error e) => (st', .error e)) := by
  refine ⟨fun _ => rfl, fun _ => rfl, fun _ => rfl, fun _ => rfl, fun _ _ => rfl,
    fun _ _ => rfl, fun _ _ => rfl, fun recur st name fv rest acc h => ?_,
    fun recur st name f rest acc => ?_⟩
  · simp only [resolveLoopWith, List.lookup, beq_self_eq_true, h, Bool.false_eq_true, if_false]
  · cases hr : recur st acc with
    | mk st' r =>
      cases r <;>
        simp only [resolveLoopWith, List.lookup, beq_self_eq_true, Expr.isFunction, Expr.arity,
          apply1With, hr, Bool.and_self, if_true]

/-- C10 witness: a zero-argument thunk stored in a frame is treated as a
concrete overwrite and is not invoked during the scan. -/
theorem claim_C10_witness :
    resolveLoopWith (evaluate 0) [] [[("x", Expr.thunk fun _ => Expr.num 7)]] "x" Expr.undef
      = resolveLoopWith (evaluate 0) [] [] "x" (Expr.thunk fun _ => Expr.num 7) :=
  claim_C10.2.2.2.2.2.2.2.1 (evaluate 0) [] "x" (Expr.thunk fun _ => Expr.num 7) []
    Expr.undef rfl

end Spogtan
